import Mathlib

/-!
Verification of the ClozerAI desktop core against its specification.

The definitions below are a shallow embedding of the repository's source:

* `requestStart` / `requestStop` embed the `ipc-start-audio-tap` and
  `ipc-stop-audio-tap` handlers of `src/main/main.ts` (the module-level
  `audioTapInstance` slot becomes an explicit `TapState`; the awaited
  native `cleanup()` / platform `start` calls become outcome parameters,
  and the externally observable resource operations are recorded as an
  event trace).
* The combined transcript buffer (`addTranscript`, `getCombinedTranscriptString`)
  is modelled from the spec, since `useCombinedTranscript`'s implementation
  is not part of the sources; the `useAudioTap` / `useMicrophoneTranscription`
  callback adapters around it are embedded from `useSessionTranscription`.
* `prepareMessages`, `handleGenerateResponse`,
  `handleGenerateResponseWithScreenshot` embed the chat orchestration of
  `useSessionTranscription`.
* `rotTick` embeds the session-clock / credential-rotation effects of
  `useSessionTranscription` (the `hasAutoExtended` /
  `hasChatActivitySinceLastExtension` flags and `handleSessionExtended`).
-/

namespace ClozerAI

/-! ## Audio tap lifecycle manager (src/main/main.ts) -/

/-- The renderer-facing status values returned by the IPC handlers. -/
inductive Status where
  | idle
  | recording
  | error
deriving DecidableEq

/-- Externally observable resource operations performed by the handlers:
`cleaned h` is a completed `audioTapInstance.cleanup()` await for handle `h`,
`acquire` is an invocation of the platform `startAudioTap…` routine, and
`started h` is such an invocation resolving with a live adapter handle `h`. -/
inductive TapEvent where
  | cleaned (h : Nat)
  | acquire
  | started (h : Nat)
deriving DecidableEq

/-- The module-level mutable slot `let audioTapInstance: AudioTapResult | null`. -/
structure TapState where
  audioTapInstance : Option Nat
deriving DecidableEq

/-- The error message thrown by the handler on a platform that is neither
macOS (`darwin`) nor Windows (`win32`). -/
def unsupportedPlatformMessage (platform : String) : String :=
  "Unsupported platform: " ++ platform ++
    ". ClozerAI Desktop only supports macOS and Windows."

/-- The cleanup performed at the top of `ipc-start-audio-tap`: when the slot is
occupied, `cleanup()` of the prior instance is awaited (its error caught and
logged) before the slot is nulled. -/
def cleanupEvents (s : TapState) : List TapEvent :=
  match s.audioTapInstance with
  | some h => [TapEvent.cleaned h]
  | none => []

/-- The `ipc-start-audio-tap` handler.  `cleanupOutcome` is the result of the
awaited `cleanup()` of a prior instance (the handler catches and logs it, so it
never influences the outcome), `startOutcome` is the result of the platform
`startAudioTapMac` / `startAudioTapWin` call.  Returns the new slot state, the
value returned (or error thrown) to the IPC caller, and the event trace. -/
def requestStart (platform : String) (s : TapState)
    (cleanupOutcome : Except String Unit) (startOutcome : Except String Nat) :
    TapState × Except String Status × List TapEvent :=
  let _ := cleanupOutcome
  let evs := cleanupEvents s
  if platform = "darwin" ∨ platform = "win32" then
    match startOutcome with
    | Except.ok h =>
        (⟨some h⟩, Except.ok Status.recording,
          evs ++ [TapEvent.acquire, TapEvent.started h])
    | Except.error e =>
        (⟨none⟩, Except.error e, evs ++ [TapEvent.acquire])
  else
    (⟨none⟩, Except.error (unsupportedPlatformMessage platform), evs)

/-- The `ipc-stop-audio-tap` handler: when the slot is occupied, `cleanup()` is
awaited (errors caught and logged, never rethrown), the slot is nulled
unconditionally, and `Status.IDLE` is returned; when empty, it returns
`Status.IDLE` immediately. -/
def requestStop (s : TapState) (cleanupOutcome : Except String Unit) :
    TapState × Status × List TapEvent :=
  let _ := cleanupOutcome
  match s.audioTapInstance with
  | some h => (⟨none⟩, Status.idle, [TapEvent.cleaned h])
  | none => (s, Status.idle, [])

/-- Semantics of the event trace: the list of handles that are live (started
and not yet cleaned up) after an event. -/
def applyTapEvent (l : List Nat) : TapEvent → List Nat
  | TapEvent.started h => l ++ [h]
  | TapEvent.cleaned h => l.erase h
  | TapEvent.acquire => l

/-- Live handles after a sequence of events, starting from `l`. -/
def applyTapEvents (l : List Nat) (evs : List TapEvent) : List Nat :=
  evs.foldl applyTapEvent l

/-- The handles held by the slot, as a list. -/
def optHandles : Option Nat → List Nat
  | some h => [h]
  | none => []

/-- One invocation of `ipc-start-audio-tap` with its environment-supplied
outcomes. -/
structure StartCall where
  platform : String
  cleanupOutcome : Except String Unit
  startOutcome : Except String Nat

/-- A sequence of `ipc-start-audio-tap` invocations (the IPC handler queue is
sequential), with the concatenated event trace. -/
def runStarts : List StartCall → TapState → TapState × List TapEvent
  | [], s => (s, [])
  | c :: rest, s =>
    let r1 := requestStart c.platform s c.cleanupOutcome c.startOutcome
    let r2 := runStarts rest r1.1
    (r2.1, r1.2.2 ++ r2.2)

/-! ## Combined transcript buffer -/

/-- One unit of merged transcript (spec §3 `TranscriptEntry`): text, source tag
(`"microphone"` or `"share"`), and whether the entry is a still-open partial. -/
structure TranscriptEntry where
  text : String
  source : String
  isPartialFlag : Bool
deriving DecidableEq

/-- Modelled from the spec: the implementation of `useCombinedTranscript` is
not among the sources, only its interface; per spec §4.3, a partial event
replaces that source's open partial entry in place (or creates one at the end
if absent). -/
def replaceOpenPartialEntry (text source : String) :
    List TranscriptEntry → List TranscriptEntry
  | [] => [⟨text, source, true⟩]
  | e :: rest =>
    if e.source == source && e.isPartialFlag then
      ⟨text, source, true⟩ :: rest
    else
      e :: replaceOpenPartialEntry text source rest

/-- Modelled from the spec: a final event from a source drops that source's
open partial. -/
def dropOpenPartialEntry (source : String) (l : List TranscriptEntry) :
    List TranscriptEntry :=
  l.filter (fun e => !(e.source == source && e.isPartialFlag))

/-- Modelled from the spec: `addTranscript(text, source, isPartial)` of
`useCombinedTranscript` — if partial, replace that source's open partial
(or create one); if final, drop that source's open partial and append an
immutable entry. -/
def addTranscript (text source : String) (isPartialArg : Bool)
    (l : List TranscriptEntry) : List TranscriptEntry :=
  if isPartialArg then replaceOpenPartialEntry text source l
  else dropOpenPartialEntry source l ++ [⟨text, source, false⟩]

/-- Modelled from the spec: `getCombinedTranscriptString()` concatenates all
entries (finals and open partials) in chronological arrival order, without
source tags. -/
def getCombinedTranscriptString (l : List TranscriptEntry) : String :=
  String.intercalate " " (l.map (fun e => e.text))

/-- One `addTranscript` invocation. -/
structure TranscriptEvent where
  text : String
  source : String
  isPartialFlag : Bool
deriving DecidableEq

/-- Applying a sequence of `addTranscript` events to a buffer. -/
def runTranscriptEvents : List TranscriptEvent → List TranscriptEntry → List TranscriptEntry
  | [], l => l
  | ev :: rest, l => runTranscriptEvents rest (addTranscript ev.text ev.source ev.isPartialFlag l)

/-- Number of open partial entries tagged with source `s`. -/
def countOpenPartials (s : String) (l : List TranscriptEntry) : Nat :=
  (l.filter (fun e => e.source == s && e.isPartialFlag)).length

/-- Invariant: every source has at most one outstanding partial entry. -/
def partialsOK (l : List TranscriptEntry) : Prop :=
  ∀ s : String, countOpenPartials s l ≤ 1

/-- The spec's scenario: microphone partial "hel", partial "hello",
final "hello there". -/
def micScenario : List TranscriptEvent :=
  [⟨"hel", "microphone", true⟩, ⟨"hello", "microphone", true⟩,
   ⟨"hello there", "microphone", false⟩]

/-! ## Adapter→buffer callbacks (useSessionTranscription lines 64–95) -/

/-- The `useAudioTap` final-transcript callback in `useSessionTranscription`:
`if (!transcript) return; addToCombinedTranscript(transcript, 'share', false)`. -/
def audioTapOnFinalText (transcript : String) (buf : List TranscriptEntry) :
    List TranscriptEntry :=
  if transcript = "" then buf else addTranscript transcript "share" false buf

/-- The `useAudioTap` partial-transcript callback:
`addToCombinedTranscript(partialTranscript, 'share', true)` (unconditional). -/
def audioTapOnPartialText (partialTranscript : String) (buf : List TranscriptEntry) :
    List TranscriptEntry :=
  addTranscript partialTranscript "share" true buf

/-- The `useMicrophoneTranscription` final-transcript callback:
`if (!transcript) return; addToCombinedTranscript(transcript, 'microphone', false)`. -/
def microphoneOnFinalText (transcript : String) (buf : List TranscriptEntry) :
    List TranscriptEntry :=
  if transcript = "" then buf else addTranscript transcript "microphone" false buf

/-- The `useMicrophoneTranscription` partial-transcript callback
(unconditional). -/
def microphoneOnPartialText (partialTranscript : String) (buf : List TranscriptEntry) :
    List TranscriptEntry :=
  addTranscript partialTranscript "microphone" true buf

/-! ## Chat orchestrator (useSessionTranscription) -/

/-- One chat turn: role (`"user"` / `"assistant"`), content, the optional
`data.imageUrl` attachment, and the optional `data.task` tag. -/
structure ChatMsg where
  role : String
  content : String
  imageUrl : Option String
  task : Option String
deriving DecidableEq

/-- The body of the `.map((m, idx, arr) => …)` in `prepareMessagesForNewMessage`:
a user message with an attached image that is not at the last index of the
sliced array has its image removed. -/
def stripImagesMap (lastIdx : Nat) : Nat → List ChatMsg → List ChatMsg
  | _, [] => []
  | idx, m :: rest =>
    (if m.role = "user" ∧ m.imageUrl.isSome = true ∧ idx ≠ lastIdx then
        { m with imageUrl := none }
      else m) :: stripImagesMap lastIdx (idx + 1) rest

/-- `prepareMessagesForNewMessage`: keep at most the last 10 messages
(`messages.slice(-10)`) and remove images from user messages other than the
last element of the sliced array. -/
def prepareMessages (messages : List ChatMsg) : List ChatMsg :=
  let arr := messages.drop (messages.length - 10)
  stripImagesMap (arr.length - 1) 0 arr

/-- The renderer-side state touched by the chat-generation handlers: the
`useChat` message list, the combined transcript buffer, the chat input box,
and the `hasChatActivitySinceLastExtension` flag. -/
structure OrchState where
  messages : List ChatMsg
  transcript : List TranscriptEntry
  chatInput : String
  hasChatActivitySinceLastExtension : Bool
deriving DecidableEq

/-- The literal prefixed to the chat input on the direct-message path. -/
def directMessageHeader : String := "**Direct Message from Sales Agent**: "

/-- The `content` computation of `handleGenerateResponse`:
`task === 'direct-message' ? '**Direct Message from Sales Agent**: ' + chatInput
: chatInput || getCombinedTranscriptString()`. -/
def genContent (task : String) (st : OrchState) : String :=
  if task = "direct-message" then directMessageHeader ++ st.chatInput
  else if st.chatInput = "" then getCombinedTranscriptString st.transcript
  else st.chatInput

/-- `handleGenerateResponse(task)`: set the chat-activity flag, (stop the
in-flight stream, wait a tick,) trim history, append a user turn carrying the
task tag, then clear the chat input (direct message) or the combined transcript
buffer (other triggers). -/
def handleGenerateResponse (task : String) (st : OrchState) : OrchState :=
  let trimmed := prepareMessages st.messages
  let newMsg : ChatMsg :=
    { role := "user", content := genContent task st, imageUrl := none, task := some task }
  let st2 : OrchState :=
    { st with hasChatActivitySinceLastExtension := true, messages := trimmed ++ [newMsg] }
  if task = "direct-message" then { st2 with chatInput := "" }
  else { st2 with transcript := [] }

/-- The fixed instructional prompt of the screenshot path. -/
def screenshotInstruction : String :=
  "This is a screenshot of the callee's screen. Analyze the screen and provide a useful response."

/-- `handleGenerateResponseWithScreenshot()`: set the chat-activity flag, stop
the in-flight stream, then inside `try`: capture a screenshot (`capture` is the
awaited outcome), resize it (`resize` embeds the external `resizeImage`
collaborator), trim history and append a user turn with the fixed prompt plus
the image; on capture failure the `catch` only logs. -/
def handleGenerateResponseWithScreenshot (capture : Except String String)
    (resize : String → String) (st : OrchState) : OrchState :=
  match capture with
  | Except.error _ => { st with hasChatActivitySinceLastExtension := true }
  | Except.ok dataUrl =>
    let resized := resize dataUrl
    let trimmed := prepareMessages st.messages
    let newMsg : ChatMsg :=
      { role := "user", content := screenshotInstruction,
        imageUrl := some resized, task := none }
    { st with hasChatActivitySinceLastExtension := true,
              messages := trimmed ++ [newMsg] }

/-- The most recent user turn of a history, if any. -/
def lastUserTurn (l : List ChatMsg) : Option ChatMsg :=
  (l.filter (fun m => m.role == "user")).getLast?

/-- Shorthand for an imageless user turn. -/
def mkUserMsg (c : String) : ChatMsg := ⟨"user", c, none, none⟩

/-- Shorthand for an assistant turn. -/
def mkAssistantMsg (c : String) : ChatMsg := ⟨"assistant", c, none, none⟩

/-- A 15-turn history whose most recent user turn carries an image and is
followed by an assistant turn (the ordinary shape right after an answer). -/
def c5Messages : List ChatMsg :=
  [mkUserMsg "m1", mkAssistantMsg "m2", mkUserMsg "m3", mkAssistantMsg "m4",
   mkUserMsg "m5", mkAssistantMsg "m6", mkUserMsg "m7", mkAssistantMsg "m8",
   mkUserMsg "m9", mkAssistantMsg "m10", mkUserMsg "m11", mkAssistantMsg "m12",
   mkUserMsg "m13", ⟨"user", "m14", some "img-14", none⟩, mkAssistantMsg "m15"]

/-! ## Session clock & credential rotator (useSessionTranscription) -/

/-- The local state of the rotation logic: the `hasAutoExtended` flag, the
`hasChatActivitySinceLastExtension` flag, and a counter of renewal attempts
(each call of `handleSessionExtended` from the auto-extension effect). -/
structure RotState where
  hasAutoExtended : Bool
  hasChatActivitySinceLastExtension : Bool
  extensionAttempts : Nat
deriving DecidableEq

/-- The environment of one 1-second re-evaluation tick: the polled session's
`timeLeft` (used by `willAutoExtend`), the locally computed
`endsAt − now` (used by the effects), the session's `trial` / `canExtend`
flags, whether a speechmatics-session mutation is in flight
(`generateSpeechmaticsSessionLoading`), whether a chat-turn trigger fired since
the previous tick, the session's cached `speechmaticsApiKey`, the key a
successful `generateSpeechmaticsSession()` would return (`none` = the call
rejects), which adapters are currently recording, and the session language. -/
structure RotInput where
  serverTimeLeft : Option Int
  localTimeLeft : Option Int
  trial : Bool
  canExtend : Bool
  extendLoading : Bool
  chatTrigger : Bool
  sessionKey : Option String
  activationKey : Option String
  tapRecording : Bool
  micRecording : Bool
  language : String
deriving DecidableEq

/-- The outward calls a renewal makes. -/
inductive RotAction where
  | setQueryData
  | activateSession
  | switchTapKey (key lang : String)
  | switchMicKey (key lang : String)
deriving DecidableEq

/-- JavaScript truthiness of `t && t < bound` for a nullable number. -/
def truthyLtBound (t : Option Int) (bound : Int) : Bool :=
  match t with
  | none => false
  | some v => decide (v ≠ 0) && decide (v < bound)

/-- JavaScript truthiness of `t && t > bound` for a nullable number. -/
def truthyGtBound (t : Option Int) (bound : Int) : Bool :=
  match t with
  | none => false
  | some v => decide (v ≠ 0) && decide (v > bound)

/-- `willAutoExtend`: `callSession.timeLeft && callSession.timeLeft < 360000 &&
!generateSpeechmaticsSessionLoading && callSession.canExtend &&
!callSession.trial && hasChatActivitySinceLastExtension`. -/
def willAutoExtend (i : RotInput) (s : RotState) : Bool :=
  truthyLtBound i.serverTimeLeft 360000 && !i.extendLoading && i.canExtend
    && !i.trial && s.hasChatActivitySinceLastExtension

/-- The credential a renewal ends up using: the session's cached
`speechmaticsApiKey` when present, otherwise the freshly activated key. -/
def effectiveKey (i : RotInput) : Option String :=
  match i.sessionKey with
  | some k => some k
  | none => i.activationKey

/-- The `switchApiKey` calls of `handleSessionExtended`: one per currently
recording adapter, with the new key and the session's language. -/
def switchActions (k : String) (i : RotInput) : List RotAction :=
  (if i.tapRecording then [RotAction.switchTapKey k i.language] else [])
    ++ (if i.micRecording then [RotAction.switchMicKey k i.language] else [])

/-- `handleSessionExtended(newCallSession)`: cache the session, obtain a key
(reuse the session's, else await `generateSpeechmaticsSession()` — whose
rejection aborts the rest), switch credentials on every recording adapter, and
finally clear `hasChatActivitySinceLastExtension`. -/
def handleSessionExtended (i : RotInput) (s : RotState) : RotState × List RotAction :=
  match i.sessionKey with
  | some k =>
    ({ s with hasChatActivitySinceLastExtension := false },
      RotAction.setQueryData :: switchActions k i)
  | none =>
    match i.activationKey with
    | some k =>
      ({ s with hasChatActivitySinceLastExtension := false },
        RotAction.setQueryData :: RotAction.activateSession :: switchActions k i)
    | none => (s, [RotAction.setQueryData, RotAction.activateSession])

/-- One re-evaluation tick: a chat-turn trigger (if any) sets the activity
flag; the auto-extension effect fires `handleSessionExtended` when
`willAutoExtend && timeLeft && timeLeft < 60000 && !hasAutoExtended`, arming
`hasAutoExtended`; the reset effect disarms it when
`timeLeft && timeLeft > 60000 && hasAutoExtended`. -/
def rotTick (i : RotInput) (s : RotState) : RotState × List RotAction :=
  let s0 := if i.chatTrigger then { s with hasChatActivitySinceLastExtension := true } else s
  let armStep :=
    if willAutoExtend i s0 && truthyLtBound i.localTimeLeft 60000 && !s0.hasAutoExtended then
      handleSessionExtended i
        { s0 with hasAutoExtended := true, extensionAttempts := s0.extensionAttempts + 1 }
    else (s0, [])
  let s1 := armStep.1
  let s2 :=
    if truthyGtBound i.localTimeLeft 60000 && s1.hasAutoExtended then
      { s1 with hasAutoExtended := false }
    else s1
  (s2, armStep.2)

/-- A sequence of ticks. -/
def rotRun : List RotInput → RotState → RotState × List RotAction
  | [], s => (s, [])
  | i :: rest, s =>
    let r1 := rotTick i s
    let r2 := rotRun rest r1.1
    (r2.1, r1.2 ++ r2.2)

/-- The initial rotator state: `useState(false)` for `hasAutoExtended`,
`useState(true)` for `hasChatActivitySinceLastExtension`. -/
def initRotState : RotState := ⟨false, true, 0⟩

/-- A fully eligible tick input with the given time left (used identically as
server- and locally-computed time left) and chat-trigger flag. -/
def c3Input (t : Int) (trig : Bool) : RotInput :=
  ⟨some t, some t, false, true, false, trig, some "fresh-key", some "activated-key",
    true, true, "en"⟩

/-- A time-left trajectory oscillating around the 60000 ms renewal threshold:
59999 ms, then 60001 ms (1 ms above — so never above any strictly larger
reset threshold), then 59999 ms again; the agent triggers one chat turn while
time-left is up. -/
def c3Trajectory : List RotInput :=
  [c3Input 59999 false, c3Input 60001 true, c3Input 59999 false]

/-- A fully eligible tick input without a cached session key, with only the
system-tap adapter recording. -/
def c4Input : RotInput :=
  ⟨some 1000, some 1000, false, true, false, false, none, some "k2", true, false, "es"⟩

/-- A concrete orchestrator state with chat input "hi". -/
def c6State : OrchState := ⟨[], [], "hi", false⟩

/-- A concrete orchestrator state with one message and one open partial in the
combined transcript buffer. -/
def c7State : OrchState :=
  ⟨[mkUserMsg "hello"], [⟨"hi", "microphone", true⟩], "", true⟩

/-! ## Theorems -/

theorem applyTapEvents_append (l : List Nat) (a b : List TapEvent) :
    applyTapEvents l (a ++ b) = applyTapEvents (applyTapEvents l a) b := by
  simp [applyTapEvents]

theorem optHandles_length_le (o : Option Nat) : (optHandles o).length ≤ 1 := by
  cases o <;> simp [optHandles]

theorem requestStart_live (platform : String) (s : TapState)
    (co : Except String Unit) (o : Except String Nat) :
    applyTapEvents (optHandles s.audioTapInstance) (requestStart platform s co o).2.2
      = optHandles (requestStart platform s co o).1.audioTapInstance := by
  obtain ⟨inst⟩ := s
  by_cases hp : platform = "darwin" ∨ platform = "win32" <;>
    cases o <;> cases inst <;>
      simp [requestStart, cleanupEvents, applyTapEvents, applyTapEvent, optHandles, hp]

theorem requestStart_take_le (platform : String) (s : TapState)
    (co : Except String Unit) (o : Except String Nat) (n : Nat) :
    (applyTapEvents (optHandles s.audioTapInstance)
        (((requestStart platform s co o).2.2).take n)).length ≤ 1 := by
  obtain ⟨inst⟩ := s
  by_cases hp : platform = "darwin" ∨ platform = "win32" <;>
    cases o <;> cases inst <;>
      rcases n with _ | _ | _ | n <;>
        simp [requestStart, cleanupEvents, applyTapEvents, applyTapEvent, optHandles, hp,
          List.take_succ_cons]

theorem runStarts_live (calls : List StartCall) : ∀ s : TapState,
    applyTapEvents (optHandles s.audioTapInstance) (runStarts calls s).2
      = optHandles ((runStarts calls s).1.audioTapInstance) := by
  induction calls with
  | nil => intro s; simp [runStarts, applyTapEvents]
  | cons c rest ih =>
    intro s
    simp only [runStarts]
    rw [applyTapEvents_append, requestStart_live]
    exact ih _

theorem runStarts_take_le (calls : List StartCall) : ∀ (s : TapState) (n : Nat),
    (applyTapEvents (optHandles s.audioTapInstance)
        ((runStarts calls s).2.take n)).length ≤ 1 := by
  induction calls with
  | nil =>
    intro s n
    simpa [runStarts, applyTapEvents] using optHandles_length_le s.audioTapInstance
  | cons c rest ih =>
    intro s n
    simp only [runStarts]
    rw [List.take_append_eq_append_take, applyTapEvents_append]
    by_cases hn : n ≤ ((requestStart c.platform s c.cleanupOutcome c.startOutcome).2.2).length
    · have h0 : n - ((requestStart c.platform s c.cleanupOutcome c.startOutcome).2.2).length = 0 :=
        Nat.sub_eq_zero_of_le hn
      rw [h0]
      simpa [applyTapEvents] using requestStart_take_le c.platform s c.cleanupOutcome c.startOutcome n
    · have hlen : ((requestStart c.platform s c.cleanupOutcome c.startOutcome).2.2).length ≤ n :=
        Nat.le_of_not_le hn
      rw [List.take_of_length_le hlen, requestStart_live]
      exact ih _ _

/-- C1: for every sequence of `ipc-start-audio-tap` invocations from the
initial empty slot, at every instant of the event trace at most one system-tap
adapter handle is live; the live handles always coincide with the slot; each
invocation awaits the prior instance's cleanup (whose outcome, i.e. any error,
is swallowed — the result is independent of it) before any start is attempted
(no `cleaned` event occurs after the cleanup block of the call); and on start
failure the slot is left empty and the error is propagated to the caller. -/
theorem c1_start_lifecycle :
    (∀ (calls : List StartCall) (n : Nat),
        (applyTapEvents [] (((runStarts calls ⟨none⟩).2).take n)).length ≤ 1)
    ∧ (∀ calls : List StartCall,
        applyTapEvents [] (runStarts calls ⟨none⟩).2
          = optHandles ((runStarts calls ⟨none⟩).1.audioTapInstance))
    ∧ (∀ (p : String) (s : TapState) (co : Except String Unit) (o : Except String Nat),
        ∃ tail : List TapEvent,
          (requestStart p s co o).2.2 = cleanupEvents s ++ tail
          ∧ ∀ h : Nat, TapEvent.cleaned h ∉ tail)
    ∧ (∀ (p : String) (s : TapState) (co co' : Except String Unit) (o : Except String Nat),
        requestStart p s co o = requestStart p s co' o)
    ∧ (∀ (p : String) (s : TapState) (co : Except String Unit) (e : String),
        (requestStart p s co (Except.error e)).1.audioTapInstance = none
        ∧ ((p = "darwin" ∨ p = "win32") →
            (requestStart p s co (Except.error e)).2.1 = Except.error e)) := by
  refine ⟨?_, ?_, ?_, ?_, ?_⟩
  · intro calls n
    exact runStarts_take_le calls ⟨none⟩ n
  · intro calls
    exact runStarts_live calls ⟨none⟩
  · intro p s co o
    by_cases hp : p = "darwin" ∨ p = "win32"
    · cases o with
      | ok h =>
        exact ⟨[TapEvent.acquire, TapEvent.started h], by simp [requestStart, hp], by simp⟩
      | error e =>
        exact ⟨[TapEvent.acquire], by simp [requestStart, hp], by simp⟩
    · exact ⟨[], by simp [requestStart, hp], by simp⟩
  · intro p s co co' o
    rfl
  · intro p s co e
    by_cases hp : p = "darwin" ∨ p = "win32" <;>
      simp [requestStart, hp]

/-- Witness for C1: a concrete run (a successful start on macOS superseded by a
second start) never has more than one live handle, and a failing start leaves
the slot empty with the error propagated. -/
theorem c1_start_lifecycle_witness :
    (applyTapEvents []
        (((runStarts [⟨"darwin", Except.ok (), Except.ok 7⟩,
            ⟨"darwin", Except.ok (), Except.ok 8⟩] ⟨none⟩).2).take 3)).length ≤ 1
    ∧ (requestStart "darwin" (⟨some 3⟩ : TapState) (Except.ok ())
          (Except.error "boom")).1.audioTapInstance = none
    ∧ (requestStart "darwin" (⟨some 3⟩ : TapState) (Except.ok ())
          (Except.error "boom")).2.1 = Except.error "boom" :=
  ⟨c1_start_lifecycle.1 [⟨"darwin", Except.ok (), Except.ok 7⟩,
      ⟨"darwin", Except.ok (), Except.ok 8⟩] 3,
    (c1_start_lifecycle.2.2.2.2 "darwin" ⟨some 3⟩ (Except.ok ()) "boom").1,
    (c1_start_lifecycle.2.2.2.2 "darwin" ⟨some 3⟩ (Except.ok ()) "boom").2 (Or.inl rfl)⟩

/-- C2: `ipc-stop-audio-tap` is idempotent — on an empty slot it returns
`idle` with no cleanup; on an occupied slot it awaits cleanup, clears the slot
unconditionally (the result does not depend on the cleanup outcome: its errors
are logged, never rethrown — the return type carries no error), and returns
`idle`; two calls in a row both return `idle` and perform at most one native
cleanup, the second performing none. -/
theorem c2_stop_idempotent (s : TapState) (co co' : Except String Unit) :
    (requestStop s co).2.1 = Status.idle
    ∧ (requestStop (requestStop s co).1 co').2.1 = Status.idle
    ∧ (requestStop s co).1.audioTapInstance = none
    ∧ (requestStop (requestStop s co).1 co').2.2 = []
    ∧ ((requestStop s co).2.2 ++ (requestStop (requestStop s co).1 co').2.2).length ≤ 1
    ∧ (s.audioTapInstance = none → (requestStop s co).2.2 = [])
    ∧ requestStop s co = requestStop s co' := by
  obtain ⟨inst⟩ := s
  cases inst <;> simp [requestStop]

/-- Witness for C2: both stop calls on an initially occupied slot return
`idle`, and a stop on the resulting empty slot performs no cleanup. -/
theorem c2_stop_idempotent_witness :
    (requestStop (⟨some 5⟩ : TapState) (Except.error "cleanup failed")).2.1 = Status.idle
    ∧ (requestStop (requestStop (⟨some 5⟩ : TapState) (Except.error "cleanup failed")).1
          (Except.ok ())).2.2 = [] :=
  ⟨(c2_stop_idempotent ⟨some 5⟩ (Except.error "cleanup failed") (Except.ok ())).1,
    (c2_stop_idempotent ⟨some 5⟩ (Except.error "cleanup failed") (Except.ok ())).2.2.2.1⟩

/-- C9: on a platform that is neither `darwin` nor `win32`,
`ipc-start-audio-tap` fails with the unsupported-platform error, the slot is
left empty, and no capture/transcription resource acquisition is attempted
(the trace contains no `acquire` and no `started` event). -/
theorem c9_unsupported_platform (p : String) (s : TapState)
    (co : Except String Unit) (o : Except String Nat)
    (hd : p ≠ "darwin") (hw : p ≠ "win32") :
    (requestStart p s co o).2.1 = Except.error (unsupportedPlatformMessage p)
    ∧ (requestStart p s co o).1.audioTapInstance = none
    ∧ TapEvent.acquire ∉ (requestStart p s co o).2.2
    ∧ ∀ h : Nat, TapEvent.started h ∉ (requestStart p s co o).2.2 := by
  have hp : ¬(p = "darwin" ∨ p = "win32") := by
    rintro (h | h) <;> [exact hd h; exact hw h]
  obtain ⟨inst⟩ := s
  cases inst <;> simp [requestStart, cleanupEvents, hp]

/-- Witness for C9: on Linux, starting over an occupied slot yields the
unsupported-platform error, empties the slot, and attempts no acquisition. -/
theorem c9_unsupported_platform_witness :
    (requestStart "linux" (⟨some 5⟩ : TapState) (Except.ok ()) (Except.ok 1)).2.1
        = Except.error (unsupportedPlatformMessage "linux")
    ∧ (requestStart "linux" (⟨some 5⟩ : TapState) (Except.ok ()) (Except.ok 1)).1.audioTapInstance
        = none
    ∧ TapEvent.acquire ∉ (requestStart "linux" (⟨some 5⟩ : TapState) (Except.ok ()) (Except.ok 1)).2.2 :=
  ⟨(c9_unsupported_platform "linux" ⟨some 5⟩ (Except.ok ()) (Except.ok 1)
      (by decide) (by decide)).1,
    (c9_unsupported_platform "linux" ⟨some 5⟩ (Except.ok ()) (Except.ok 1)
      (by decide) (by decide)).2.1,
    (c9_unsupported_platform "linux" ⟨some 5⟩ (Except.ok ()) (Except.ok 1)
      (by decide) (by decide)).2.2.1⟩

theorem countOpenPartials_replace_other (t src s : String) (hs : s ≠ src) :
    ∀ l : List TranscriptEntry,
      countOpenPartials s (replaceOpenPartialEntry t src l) = countOpenPartials s l := by
  intro l
  induction l with
  | nil =>
    simp [replaceOpenPartialEntry, countOpenPartials, List.filter,
      show (src == s) = false by simpa using fun h => hs h.symm]
  | cons e rest ih =>
    by_cases hc : (e.source == src && e.isPartialFlag) = true
    · have hsrc : e.source = src := by
        have := (Bool.and_eq_true _ _).mp hc
        exact eq_of_beq this.1
      simp [replaceOpenPartialEntry, hc, countOpenPartials, List.filter_cons,
        show (e.source == s) = false by simp [hsrc]; exact fun h => hs h.symm,
        show (src == s) = false by simpa using fun h => hs h.symm]
    · simp only [replaceOpenPartialEntry]
      rw [if_neg hc]
      simp only [countOpenPartials, List.filter_cons] at ih ⊢
      by_cases h2 : (e.source == s && e.isPartialFlag) = true <;> simp [h2, ih]

theorem countOpenPartials_replace_self (t src : String) :
    ∀ l : List TranscriptEntry,
      countOpenPartials src (replaceOpenPartialEntry t src l)
        = max 1 (countOpenPartials src l) := by
  intro l
  induction l with
  | nil => simp [replaceOpenPartialEntry, countOpenPartials, List.filter]
  | cons e rest ih =>
    by_cases hc : (e.source == src && e.isPartialFlag) = true
    · simp only [replaceOpenPartialEntry]
      rw [if_pos hc]
      simp [countOpenPartials, List.filter_cons, hc]
    · simp only [replaceOpenPartialEntry]
      rw [if_neg hc]
      simp only [countOpenPartials, List.filter_cons] at ih ⊢
      rw [if_neg hc, if_neg hc]
      exact ih

theorem countOpenPartials_drop_le (src s : String) (l : List TranscriptEntry) :
    countOpenPartials s (dropOpenPartialEntry src l) ≤ countOpenPartials s l := by
  unfold countOpenPartials dropOpenPartialEntry
  exact ((List.filter_sublist l).filter _).length_le

theorem countOpenPartials_drop_self (src : String) (l : List TranscriptEntry) :
    countOpenPartials src (dropOpenPartialEntry src l) = 0 := by
  unfold countOpenPartials dropOpenPartialEntry
  rw [List.filter_filter]
  simp

theorem countOpenPartials_append (s : String) (a b : List TranscriptEntry) :
    countOpenPartials s (a ++ b) = countOpenPartials s a + countOpenPartials s b := by
  simp [countOpenPartials, List.filter_append]

theorem addTranscript_partialsOK (text source : String) (b : Bool)
    (l : List TranscriptEntry) (hl : partialsOK l) :
    partialsOK (addTranscript text source b l) := by
  intro s
  cases b with
  | false =>
    have he : addTranscript text source false l
        = dropOpenPartialEntry source l ++ [⟨text, source, false⟩] := by
      simp [addTranscript]
    rw [he, countOpenPartials_append]
    have hb : countOpenPartials s [⟨text, source, false⟩] = 0 := by
      simp [countOpenPartials, List.filter]
    rw [hb]
    have := countOpenPartials_drop_le source s l
    have := hl s
    omega
  | true =>
    have he : addTranscript text source true l = replaceOpenPartialEntry text source l := by
      simp [addTranscript]
    rw [he]
    by_cases hs : s = source
    · subst hs
      rw [countOpenPartials_replace_self]
      have := hl s
      omega
    · rw [countOpenPartials_replace_other text source s hs]
      exact hl s

theorem runTranscriptEvents_partialsOK (evs : List TranscriptEvent) :
    ∀ l : List TranscriptEntry, partialsOK l → partialsOK (runTranscriptEvents evs l) := by
  induction evs with
  | nil => intro l hl; exact hl
  | cons ev rest ih =>
    intro l hl
    exact ih _ (addTranscript_partialsOK ev.text ev.source ev.isPartialFlag l hl)

/-- C8: for every sequence of `addTranscript` events over a buffer satisfying
the at-most-one-open-partial-per-source invariant (in particular the empty
buffer), the invariant is preserved — a partial replaces the same source's
open partial and a final drops it; and for the concrete microphone sequence
partial "hel", partial "hello", final "hello there", the combined transcript
string equals "hello there" with no duplicated fragments. -/
theorem c8_buffer_partials :
    (∀ (evs : List TranscriptEvent) (l : List TranscriptEntry),
        partialsOK l → partialsOK (runTranscriptEvents evs l))
    ∧ getCombinedTranscriptString (runTranscriptEvents micScenario []) = "hello there" := by
  constructor
  · exact runTranscriptEvents_partialsOK
  · rfl

/-- Witness for C8: the invariant theorem applied to the scenario run from the
empty buffer, read off at the microphone source. -/
theorem c8_buffer_partials_witness :
    countOpenPartials "microphone" (runTranscriptEvents micScenario []) ≤ 1 :=
  c8_buffer_partials.1 micScenario []
    (fun s => by simp [countOpenPartials, List.filter]) "microphone"

/-- C10: an empty (falsy) final-text event from either adapter is silently
discarded (the buffer is unchanged), a non-empty final is forwarded to
`addTranscript` as a final entry, and partial-text events are forwarded
unconditionally — including empty ones. -/
theorem c10_empty_final_discarded (buf : List TranscriptEntry) (t : String) :
    audioTapOnFinalText "" buf = buf
    ∧ microphoneOnFinalText "" buf = buf
    ∧ (t ≠ "" → audioTapOnFinalText t buf = addTranscript t "share" false buf)
    ∧ (t ≠ "" → microphoneOnFinalText t buf = addTranscript t "microphone" false buf)
    ∧ audioTapOnPartialText t buf = addTranscript t "share" true buf
    ∧ microphoneOnPartialText t buf = addTranscript t "microphone" true buf := by
  refine ⟨rfl, rfl, ?_, ?_, rfl, rfl⟩ <;>
    intro ht <;> simp [audioTapOnFinalText, microphoneOnFinalText, ht]

/-- Witness for C10: the non-empty final "hey" is forwarded by both adapters,
and the empty partial "" still reaches the buffer. -/
theorem c10_empty_final_discarded_witness :
    audioTapOnFinalText "hey" [] = addTranscript "hey" "share" false []
    ∧ microphoneOnFinalText "hey" [] = addTranscript "hey" "microphone" false []
    ∧ audioTapOnPartialText "" [] = addTranscript "" "share" true [] :=
  ⟨(c10_empty_final_discarded [] "hey").2.2.1 (by decide),
    (c10_empty_final_discarded [] "hey").2.2.2.1 (by decide),
    (c10_empty_final_discarded [] "").2.2.2.2.1⟩

theorem stripImagesMap_length (lastIdx : Nat) :
    ∀ (idx : Nat) (l : List ChatMsg), (stripImagesMap lastIdx idx l).length = l.length := by
  intro idx l
  induction l generalizing idx with
  | nil => rfl
  | cons m rest ih => simp [stripImagesMap, ih]

theorem stripImagesMap_getElem? (lastIdx : Nat) :
    ∀ (l : List ChatMsg) (idx j : Nat),
      (stripImagesMap lastIdx idx l)[j]? =
        (l[j]?).map (fun m =>
          if m.role = "user" ∧ m.imageUrl.isSome = true ∧ idx + j ≠ lastIdx
          then { m with imageUrl := none } else m) := by
  intro l
  induction l with
  | nil => intro idx j; rfl
  | cons m rest ih =>
    intro idx j
    cases j with
    | zero => simp [stripImagesMap]
    | succ j =>
      have heq : idx + 1 + j = idx + (j + 1) := by omega
      simp only [stripImagesMap, List.getElem?_cons_succ]
      rw [ih (idx + 1) j, heq]

theorem stripImagesMap_getLast? (lastIdx : Nat) :
    ∀ (idx : Nat) (l : List ChatMsg), idx + l.length = lastIdx + 1 →
      (stripImagesMap lastIdx idx l).getLast? = l.getLast? := by
  intro idx l
  induction l generalizing idx with
  | nil => intro _; rfl
  | cons m rest ih =>
    intro h
    cases rest with
    | nil =>
      have hi : idx = lastIdx := by simp at h; omega
      simp [stripImagesMap, hi]
    | cons m2 rest2 =>
      have h' : (idx + 1) + (m2 :: rest2).length = lastIdx + 1 := by
        simp at h ⊢; omega
      have := ih (idx + 1) h'
      simp only [stripImagesMap] at this ⊢
      rw [List.getLast?_cons_cons]
      exact this

theorem getLast?_drop_chat (l : List ChatMsg) :
    ∀ n : Nat, n < l.length → (l.drop n).getLast? = l.getLast? := by
  induction l with
  | nil => intro n h; exact absurd h (by simp)
  | cons m rest ih =>
    intro n h
    cases n with
    | zero => rfl
    | succ n =>
      have hr : n < rest.length := Nat.lt_of_succ_lt_succ h
      have hne : rest ≠ [] := by
        intro he; rw [he] at hr; exact absurd hr (by simp)
      cases rest with
      | nil => exact absurd rfl hne
      | cons m2 rest2 =>
        rw [List.drop_succ_cons, ih n hr, List.getLast?_cons_cons]

/-- C5 counterexample: on a 15-turn history whose most recent user turn
("m14", carrying image "img-14") is followed by an assistant turn — the
ordinary shape right after an assistant answer — `prepareMessagesForNewMessage`
keeps the last 10 turns but strips the image from the most recent user turn as
well (only the last message overall may keep an image), contradicting the
claim that the most recent user turn retains its attached image. -/
theorem c5_counterexample :
    c5Messages.length = 15
    ∧ lastUserTurn c5Messages = some ⟨"user", "m14", some "img-14", none⟩
    ∧ lastUserTurn (prepareMessages c5Messages) = some ⟨"user", "m14", none, none⟩
    ∧ (prepareMessages c5Messages).length = 10 :=
  ⟨rfl, rfl, rfl, rfl⟩

/-- C5 amended: for every history of 15 accumulated chat turns, after
`generate` is invoked the retained history holds exactly the last 10 turns,
the final retained message is the original final message unchanged, and every
user turn other than the one in final position has its image stripped — so the
most recent user turn keeps its image only when it is the final message of the
window. -/
theorem c5_amended_trim (ms : List ChatMsg) (hlen : ms.length = 15) :
    (prepareMessages ms).length = 10
    ∧ (∀ (i : Nat) (m : ChatMsg), i + 1 < (prepareMessages ms).length →
        (prepareMessages ms)[i]? = some m →
        m.role = "user" → m.imageUrl = none)
    ∧ (prepareMessages ms).getLast? = ms.getLast? := by
  have harr : (ms.drop (ms.length - 10)).length = 10 := by
    rw [List.length_drop, hlen]
  have hprep : prepareMessages ms
      = stripImagesMap ((ms.drop (ms.length - 10)).length - 1) 0 (ms.drop (ms.length - 10)) := rfl
  have hlen10 : (prepareMessages ms).length = 10 := by
    rw [hprep, stripImagesMap_length, harr]
  refine ⟨hlen10, ?_, ?_⟩
  · intro i m hlt hm hrole
    have hi9 : i < 9 := by omega
    rw [hprep, stripImagesMap_getElem?, harr] at hm
    cases hm0 : (ms.drop (ms.length - 10))[i]? with
    | none => rw [hm0] at hm; exact absurd hm (by simp)
    | some m0 =>
      rw [hm0, Option.map_some'] at hm
      have hmeq : (if m0.role = "user" ∧ m0.imageUrl.isSome = true ∧ 0 + i ≠ 10 - 1
          then { m0 with imageUrl := none } else m0) = m := by
        injection hm
      by_cases hcond : m0.role = "user" ∧ m0.imageUrl.isSome = true ∧ 0 + i ≠ 10 - 1
      · rw [if_pos hcond] at hmeq
        rw [← hmeq]
      · rw [if_neg hcond] at hmeq
        subst hmeq
        cases hmu : m0.imageUrl with
        | none => rfl
        | some v =>
          exact absurd ⟨hrole, by rw [hmu]; rfl, by omega⟩ hcond
  · rw [hprep]
    rw [stripImagesMap_getLast? _ 0 _ (by rw [harr])]
    exact getLast?_drop_chat ms (ms.length - 10) (by omega)

/-- Witness for C5 amended: the concrete 15-turn history, with the first
retained turn (a user turn) imageless and the final assistant turn kept
unchanged. -/
theorem c5_amended_trim_witness :
    (prepareMessages c5Messages).length = 10
    ∧ (prepareMessages c5Messages).getLast? = c5Messages.getLast? :=
  ⟨(c5_amended_trim c5Messages (by decide)).1,
    (c5_amended_trim c5Messages (by decide)).2.2⟩

/-- C6 counterexample: on the direct-message trigger with explicit text "hi",
the appended user turn's content is the fixed header concatenated with the
text, not the explicit text itself — contradicting "the appended user turn's
content equals the explicit text when the trigger is a direct message". -/
theorem c6_counterexample :
    ((handleGenerateResponse "direct-message" c6State).messages.getLast?).map ChatMsg.content
        = some ("**Direct Message from Sales Agent**: hi")
    ∧ c6State.chatInput = "hi"
    ∧ some ("**Direct Message from Sales Agent**: hi") ≠ some "hi" :=
  ⟨rfl, rfl, by decide⟩

/-- C6 amended: the appended user turn carries the trigger tag; its content is
the fixed header `"**Direct Message from Sales Agent**: "` concatenated with
the explicit text when the trigger is a direct message, and otherwise the
explicit text if non-empty, else the combined transcript string; the combined
transcript buffer is cleared if and only if the trigger is not a direct
message (the direct-message path clears the chat input instead). -/
theorem c6_amended_generate (task : String) (st : OrchState) :
    (handleGenerateResponse task st).messages
        = prepareMessages st.messages ++ [⟨"user", genContent task st, none, some task⟩]
    ∧ (task = "direct-message" →
        genContent task st = directMessageHeader ++ st.chatInput
        ∧ (handleGenerateResponse task st).transcript = st.transcript
        ∧ (handleGenerateResponse task st).chatInput = "")
    ∧ (task ≠ "direct-message" →
        (st.chatInput ≠ "" → genContent task st = st.chatInput)
        ∧ (st.chatInput = "" → genContent task st = getCombinedTranscriptString st.transcript)
        ∧ (handleGenerateResponse task st).transcript = []
        ∧ (handleGenerateResponse task st).chatInput = st.chatInput) := by
  by_cases h : task = "direct-message"
  · refine ⟨?_, fun _ => ⟨?_, ?_, ?_⟩, fun hn => absurd h hn⟩ <;>
      simp [handleGenerateResponse, genContent, h]
  · refine ⟨?_, fun hy => absurd hy h, fun _ => ⟨?_, ?_, ?_, ?_⟩⟩
    · simp [handleGenerateResponse, h]
    · intro hc; simp [genContent, h, hc]
    · intro hc; simp [genContent, h, hc]
    · simp [handleGenerateResponse, h]
    · simp [handleGenerateResponse, h]

/-- Witness for C6 amended: the direct-message trigger on the concrete state —
content is the header plus "hi", the transcript buffer is untouched, the chat
input is cleared. -/
theorem c6_amended_generate_witness :
    genContent "direct-message" c6State = directMessageHeader ++ c6State.chatInput
    ∧ (handleGenerateResponse "direct-message" c6State).transcript = c6State.transcript
    ∧ (handleGenerateResponse "direct-message" c6State).chatInput = "" :=
  (c6_amended_generate "direct-message" c6State).2.1 rfl

/-- C7: if the screenshot acquisition of `handleGenerateResponseWithScreenshot`
fails, no user turn is appended and the in-memory conversation history is left
unchanged; and regardless of success or failure the combined transcript buffer
is never cleared (never even touched). -/
theorem c7_screenshot_failure (capture : Except String String)
    (resize : String → String) (st : OrchState) :
    (handleGenerateResponseWithScreenshot capture resize st).transcript = st.transcript
    ∧ (∀ e : String, capture = Except.error e →
        (handleGenerateResponseWithScreenshot capture resize st).messages = st.messages) := by
  cases capture <;> simp [handleGenerateResponseWithScreenshot]

/-- Witness for C7: a failed capture on the concrete state leaves both the
history and the transcript buffer as they were. -/
theorem c7_screenshot_failure_witness :
    (handleGenerateResponseWithScreenshot (Except.error "ScreenshotFailed")
        (fun s => s) c7State).transcript = c7State.transcript
    ∧ (handleGenerateResponseWithScreenshot (Except.error "ScreenshotFailed")
        (fun s => s) c7State).messages = c7State.messages :=
  ⟨(c7_screenshot_failure (Except.error "ScreenshotFailed") (fun s => s) c7State).1,
    (c7_screenshot_failure (Except.error "ScreenshotFailed") (fun s => s) c7State).2
      "ScreenshotFailed" rfl⟩

theorem handleSessionExtended_hasAutoExtended (i : RotInput) (s : RotState) :
    (handleSessionExtended i s).1.hasAutoExtended = s.hasAutoExtended := by
  rcases hsk : i.sessionKey with _ | k <;>
    rcases hak : i.activationKey with _ | k2 <;>
      simp [handleSessionExtended, hsk, hak]

theorem handleSessionExtended_attempts (i : RotInput) (s : RotState) :
    (handleSessionExtended i s).1.extensionAttempts = s.extensionAttempts := by
  rcases hsk : i.sessionKey with _ | k <;>
    rcases hak : i.activationKey with _ | k2 <;>
      simp [handleSessionExtended, hsk, hak]

theorem rotTick_armed (i : RotInput) (s : RotState)
    (ha : s.hasAutoExtended = true)
    (hg : truthyGtBound i.localTimeLeft 60000 = false) :
    (rotTick i s).1.hasAutoExtended = true
    ∧ (rotTick i s).1.extensionAttempts = s.extensionAttempts := by
  by_cases ht : i.chatTrigger <;>
    simp [rotTick, ht, ha, hg]

theorem rotTick_attempts (i : RotInput) (s : RotState)
    (hg : truthyGtBound i.localTimeLeft 60000 = false) :
    (rotTick i s).1.extensionAttempts = s.extensionAttempts
    ∨ ((rotTick i s).1.extensionAttempts = s.extensionAttempts + 1
        ∧ (rotTick i s).1.hasAutoExtended = true) := by
  by_cases ht : i.chatTrigger <;>
    simp only [rotTick, ht, if_true, if_false, hg, Bool.false_and] <;>
    split_ifs with h1 <;>
    first
      | contradiction
      | simp [handleSessionExtended_attempts, handleSessionExtended_hasAutoExtended]

theorem rotRun_armed (inputs : List RotInput) : ∀ s : RotState,
    s.hasAutoExtended = true →
    (∀ i ∈ inputs, truthyGtBound i.localTimeLeft 60000 = false) →
    (rotRun inputs s).1.hasAutoExtended = true
    ∧ (rotRun inputs s).1.extensionAttempts = s.extensionAttempts := by
  induction inputs with
  | nil => intro s ha _; exact ⟨ha, rfl⟩
  | cons i rest ih =>
    intro s ha hg
    have hgi : truthyGtBound i.localTimeLeft 60000 = false := hg i (by simp)
    have h1 := rotTick_armed i s ha hgi
    have h2 := ih (rotTick i s).1 h1.1 (fun j hj => hg j (by simp [hj]))
    simp only [rotRun]
    exact ⟨h2.1, h2.2.trans h1.2⟩

/-- C3 counterexample: on the concrete eligible time-left trajectory
59999 ms → 60001 ms → 59999 ms (oscillating around the 60000 ms renewal
threshold, rising only 1 ms above it — hence never above any reset threshold
strictly larger than the renewal threshold), with a chat turn triggered while
time-left is up, renewal is attempted twice — once per oscillation — because
the `hasAutoExtended` flag is disarmed already at `timeLeft > 60000`, the very
same 60000 ms threshold, not a strictly larger one. -/
theorem c3_counterexample :
    (rotRun c3Trajectory initRotState).1.extensionAttempts = 2 := rfl

/-- C3 amended: the code's disarm ("reset") condition is `timeLeft > 60000`,
with the same 60000 ms constant as the arming condition `timeLeft < 60000` —
the reset threshold equals the renewal threshold instead of being strictly
larger. Consequently renewal is attempted at most once only as long as
time-left never strictly exceeds 60000 ms: for every tick sequence whose
time-left is never truthy and above 60000 ms, the run performs at most one
renewal attempt more than the starting state. -/
theorem c3_amended_single_attempt (inputs : List RotInput) (s : RotState)
    (hg : ∀ i ∈ inputs, truthyGtBound i.localTimeLeft 60000 = false) :
    (rotRun inputs s).1.extensionAttempts ≤ s.extensionAttempts + 1 := by
  induction inputs generalizing s with
  | nil => simp [rotRun]
  | cons i rest ih =>
    have hgi : truthyGtBound i.localTimeLeft 60000 = false := hg i (by simp)
    have hgr : ∀ j ∈ rest, truthyGtBound j.localTimeLeft 60000 = false :=
      fun j hj => hg j (by simp [hj])
    simp only [rotRun]
    rcases rotTick_attempts i s hgi with h | ⟨h, harm⟩
    · have := ih (s := (rotTick i s).1) hgr
      omega
    · have := (rotRun_armed rest (rotTick i s).1 harm hgr).2
      omega

/-- Witness for C3 amended: a single eligible tick at 59999 ms from the
initial state attempts at most one renewal. -/
theorem c3_amended_single_attempt_witness :
    (rotRun [c3Input 59999 false] initRotState).1.extensionAttempts
      ≤ initRotState.extensionAttempts + 1 :=
  c3_amended_single_attempt [c3Input 59999 false] initRotState (by decide)

theorem rotTick_guard_of_acts (i : RotInput) (s : RotState)
    (hne : (rotTick i s).2 ≠ []) :
    (willAutoExtend i
          (if i.chatTrigger then { s with hasChatActivitySinceLastExtension := true } else s)
        && truthyLtBound i.localTimeLeft 60000
        && !(if i.chatTrigger then { s with hasChatActivitySinceLastExtension := true } else s).hasAutoExtended)
      = true := by
  by_contra hc
  apply hne
  simp only [rotTick]
  rw [if_neg hc]

theorem rotTick_renewal_switches (i : RotInput) (s : RotState) (k : String)
    (hk : effectiveKey i = some k) (hne : (rotTick i s).2 ≠ []) :
    (i.tapRecording = true → RotAction.switchTapKey k i.language ∈ (rotTick i s).2)
    ∧ (i.micRecording = true → RotAction.switchMicKey k i.language ∈ (rotTick i s).2)
    ∧ (i.sessionKey = none → RotAction.activateSession ∈ (rotTick i s).2)
    ∧ (rotTick i s).1.hasChatActivitySinceLastExtension = false := by
  have hg := rotTick_guard_of_acts i s hne
  simp only [rotTick]
  rw [if_pos hg]
  rcases hsk : i.sessionKey with _ | k0
  · rcases hak : i.activationKey with _ | k1
    · simp [effectiveKey, hsk, hak] at hk
    · simp only [effectiveKey, hsk, hak] at hk
      have hk1 : k1 = k := by injection hk
      subst hk1
      simp only [handleSessionExtended, hsk, hak]
      refine ⟨?_, ?_, ?_, ?_⟩
      · intro htap; simp [switchActions, htap]
      · intro hmic; simp [switchActions, hmic]
      · intro _; simp
      · split_ifs <;> rfl
  · simp only [effectiveKey, hsk] at hk
    have hk0 : k0 = k := by injection hk
    subst hk0
    simp only [handleSessionExtended, hsk]
    refine ⟨?_, ?_, ?_, ?_⟩
    · intro htap; simp [switchActions, htap]
    · intro hmic; simp [switchActions, hmic]
    · intro habs; simp [hsk] at habs
    · split_ifs <;> rfl

/-- C4: a renewal (a nonempty action list of a tick) happens only when the
session is not a trial, extension is allowed, no extension is in flight, and
there has been chat activity since the last extension (either a chat-turn
trigger this tick or the flag already set); when it runs with an available
credential — the session's cached key or a freshly activated one — it calls
`switchApiKey` with that credential and the session's language on every
currently-recording adapter (and activates a fresh session when no key is
cached), and clears the chat-activity flag; and both chat-turn triggers
(`handleGenerateResponse`, `handleGenerateResponseWithScreenshot`) set the
chat-activity flag. -/
theorem c4_renewal_conditions (i : RotInput) (s : RotState) :
    ((rotTick i s).2 ≠ [] →
        i.trial = false ∧ i.canExtend = true ∧ i.extendLoading = false
        ∧ (i.chatTrigger || s.hasChatActivitySinceLastExtension) = true)
    ∧ (∀ k : String, effectiveKey i = some k → (rotTick i s).2 ≠ [] →
        (i.tapRecording = true → RotAction.switchTapKey k i.language ∈ (rotTick i s).2)
        ∧ (i.micRecording = true → RotAction.switchMicKey k i.language ∈ (rotTick i s).2)
        ∧ (i.sessionKey = none → RotAction.activateSession ∈ (rotTick i s).2)
        ∧ (rotTick i s).1.hasChatActivitySinceLastExtension = false)
    ∧ (∀ (t : String) (st : OrchState),
        (handleGenerateResponse t st).hasChatActivitySinceLastExtension = true)
    ∧ (∀ (cap : Except String String) (resize : String → String) (st : OrchState),
        (handleGenerateResponseWithScreenshot cap resize st).hasChatActivitySinceLastExtension
          = true) := by
  refine ⟨?_, fun k hk hne => rotTick_renewal_switches i s k hk hne, ?_, ?_⟩
  · intro hne
    have hg := rotTick_guard_of_acts i s hne
    simp only [Bool.and_eq_true] at hg
    have hw := hg.1.1
    simp only [willAutoExtend, Bool.and_eq_true, Bool.not_eq_true'] at hw
    refine ⟨hw.1.2, hw.1.1.2, hw.1.1.1.2, ?_⟩
    have he := hw.2
    by_cases ht : i.chatTrigger <;> simp [ht] at he ⊢ <;> exact he
  · intro t st
    by_cases h : t = "direct-message" <;> simp [handleGenerateResponse, h]
  · intro cap resize st
    cases cap <;> simp [handleGenerateResponseWithScreenshot]

/-- Witness for C4: the concrete eligible tick `c4Input` (no cached key, tap
recording) switches the tap credential to the activated key with the session
language, performs an activation, and clears the chat-activity flag. -/
theorem c4_renewal_conditions_witness :
    RotAction.switchTapKey "k2" "es" ∈ (rotTick c4Input initRotState).2
    ∧ RotAction.activateSession ∈ (rotTick c4Input initRotState).2
    ∧ (rotTick c4Input initRotState).1.hasChatActivitySinceLastExtension = false
    ∧ c4Input.trial = false := by
  have h := c4_renewal_conditions c4Input initRotState
  have h2 := h.2.1 "k2" (by decide) (by decide)
  exact ⟨h2.1 (by decide), h2.2.2.1 (by decide), h2.2.2.2, (h.1 (by decide)).1⟩

end ClozerAI
